import Mathlib

/-!
Verification of the `ProjectFilesMonitor` component
(`client/project_files_monitor.py`): a watchman subscription shim for the
pyre type-checking daemon.  Filesystem paths are embedded as leaf-first
component lists (the head is the deepest directory component), so the
parent of `a :: rest` is `rest` and the filesystem root is `[]`.
Side effects (logging, process exit, the `lru_cache` slot) are made
explicit in the return types.
-/

namespace PyreMonitor

/-- A directory path, as a leaf-first list of components. -/
abbrev Path := List String

/-- Modelled from the spec: the parsed startup options, "a structure with at
minimum a `currentDirectory` string field" (here a path). -/
structure Arguments where
  current_directory : Path
  deriving DecidableEq

/-- Modelled from the spec: the configuration object, which "exposes an
ordered list of additional file extensions (strings, without leading dot)". -/
structure Configuration where
  extensions : List String
  deriving DecidableEq

/-- Modelled from the spec: the analysis directory, "passed opaquely to the
base collaborator; not inspected by this component". -/
structure AnalysisDirectory where
  root : String
  deriving DecidableEq

/-- Severity of a log record. -/
inductive LogLevel where
  | error
  | info
  deriving DecidableEq

/-- One emitted log record. -/
structure LogEntry where
  level : LogLevel
  message : String
  deriving DecidableEq

/-- A watchman query expression: a string atom or a nested array, mirroring
the JSON-like lists built in `_subscriptions`. -/
inductive WExpr where
  | str : String → WExpr
  | arr : List WExpr → WExpr

/-- The `subscription` dict literal of `_subscriptions`: an `expression`
and a `fields` list. -/
structure SubscriptionBody where
  expression : WExpr
  fields : List String

/-- Modelled from the spec: the `Subscription` named tuple imported from
`watchman_subscriber` — a request "bound to a root directory and the fixed
subscription name" carrying the body; constructed positionally as
`Subscription(self._watchman_path, self._name, subscription)`. -/
structure Subscription where
  root : Path
  name : String
  subscription : SubscriptionBody

/-- Modelled from the spec: `find_root` from `client/filesystem.py` (not in
the excerpt) — "searching upward from `currentDirectory` toward the
filesystem root, stopping at the first ancestor (inclusive) that contains
the marker file; absent if none is found".  `containsFile d t` abstracts
the filesystem probe "directory `d` contains a file named `t`". -/
def findRoot (containsFile : Path → String → Bool) (target : String) :
    Path → Option Path
  | [] => if containsFile [] target then some [] else none
  | a :: rest =>
      if containsFile (a :: rest) target then some (a :: rest)
      else findRoot containsFile target rest

/-- The state stored by `ProjectFilesMonitor.__init__`.  `id` stands for
the Python object identity of the instance (used as the `lru_cache` key);
`extensions` embeds the Python set `set(["py", "pyi"] + extensions)` as a
deduplicated list. -/
structure ProjectFilesMonitor where
  id : Nat
  arguments : Arguments
  configuration : Configuration
  analysis_directory : AnalysisDirectory
  extensions : List String
  watchman_path : Option Path

/-- `ProjectFilesMonitor.__init__`: snapshots the arguments, configuration
and analysis directory, computes the extension set, and resolves the
watchman root from `arguments.current_directory` (absence is stored, not
raised). -/
def ProjectFilesMonitor.init (containsFile : Path → String → Bool) (id : Nat)
    (arguments : Arguments) (configuration : Configuration)
    (analysis_directory : AnalysisDirectory) : ProjectFilesMonitor :=
  { id := id
    arguments := arguments
    configuration := configuration
    analysis_directory := analysis_directory
    extensions := (["py", "pyi"] ++ configuration.extensions).dedup
    watchman_path :=
      findRoot containsFile ".watchmanconfig" arguments.current_directory }

/-- The `_name` property: a constant subscription identifier. -/
def ProjectFilesMonitor.name (_m : ProjectFilesMonitor) : String :=
  "pyre_file_change_subscription"

/-- Rendering of a path for the `%s` log interpolation. -/
def pathToString (p : Path) : String :=
  "/" ++ String.intercalate "/" p.reverse

/-- The clause `["suffix", extension]` built for each watched extension. -/
def suffixClause (e : String) : WExpr :=
  WExpr.arr [WExpr.str "suffix", WExpr.str e]

/-- The `subscription` dict built in `_subscriptions` for extension set
`exts`. -/
def subscriptionBodyFor (exts : List String) : SubscriptionBody :=
  { expression := WExpr.arr
      [WExpr.str "allof",
       WExpr.arr [WExpr.str "type", WExpr.str "f"],
       WExpr.arr [WExpr.str "not", WExpr.str "empty"],
       WExpr.arr (WExpr.str "anyof" :: exts.map suffixClause)]
    fields := ["name"] }

/-- Observable outcome of one evaluation of the `_subscriptions` body:
either the process exits with the given logs and exit code, or the call
returns the subscription list normally after emitting the given logs. -/
inductive SubsOutcome where
  | exited (logs : List LogEntry) (code : Nat)
  | returned (logs : List LogEntry) (subs : List Subscription)

/-- The body of the `_subscriptions` property (one uncached evaluation):
with no watchman path it logs one error naming the current directory and
calls `sys.exit(0)`; otherwise it builds the single subscription request. -/
def subscriptionsCompute (m : ProjectFilesMonitor) : SubsOutcome :=
  match m.watchman_path with
  | none =>
      SubsOutcome.exited
        [{ level := LogLevel.error
           message :=
             "Could not find a watchman directory from the current directory ("
               ++ pathToString m.arguments.current_directory ++ ")" }] 0
  | some root =>
      SubsOutcome.returned []
        [{ root := root
           name := m.name
           subscription := subscriptionBodyFor m.extensions }]

/-- The single-slot cache of `functools.lru_cache(1)`, keyed by the
identity of `self`: either empty or one `(instance id, cached result)`
pair.  `sys.exit` propagates as an exception, so nothing is cached on the
fatal branch. -/
def subscriptionsFresh (m : ProjectFilesMonitor)
    (cache : Option (Nat × List Subscription)) :
    SubsOutcome × Option (Nat × List Subscription) :=
  match subscriptionsCompute m with
  | SubsOutcome.returned logs subs =>
      (SubsOutcome.returned logs subs, some (m.id, subs))
  | SubsOutcome.exited logs code => (SubsOutcome.exited logs code, cache)

/-- One access to the `_subscriptions` property through the
`functools.lru_cache(1)` wrapper: a cache hit on this instance returns the
stored list without re-running the body; otherwise the body runs and a
normal return is stored. -/
def subscriptionsLru (m : ProjectFilesMonitor)
    (cache : Option (Nat × List Subscription)) :
    SubsOutcome × Option (Nat × List Subscription) :=
  match cache with
  | some (i, subs) =>
      if i = m.id then (SubsOutcome.returned [] subs, some (i, subs))
      else subscriptionsFresh m cache
  | none => subscriptionsFresh m none

/-- Rendering of a notification mapping for the `%s` log interpolation. -/
def reprDict (response : List (String × String)) : String :=
  String.intercalate ", " (response.map (fun kv => kv.1 ++ ": " ++ kv.2))

/-- `_handle_response`: logs the whole notification at error severity and
does nothing else; the monitor state is returned unchanged (the method
body assigns no field). -/
def handleResponse (m : ProjectFilesMonitor)
    (response : List (String × String)) :
    List LogEntry × ProjectFilesMonitor :=
  ([{ level := LogLevel.error
      message := "Received response from watchman: " ++ reprDict response }],
   m)

/-- Access to the `_name` property as a method call: returns the constant
and leaves the instance unchanged. -/
def nameCall (m : ProjectFilesMonitor) : String × ProjectFilesMonitor :=
  (m.name, m)

/-- Access to `_subscriptions` as a method call on the success path:
returns the outcome and leaves the instance's own fields unchanged (the
cache lives in the `lru_cache` wrapper, not on the instance). -/
def subscriptionsCall (m : ProjectFilesMonitor) :
    SubsOutcome × ProjectFilesMonitor :=
  (subscriptionsCompute m, m)

/-- C7: The subscription-name accessor returns the same fixed constant
string on every access, independent of the construction inputs and of any
prior operations. -/
theorem name_constant (m m' : ProjectFilesMonitor) :
    m.name = "pyre_file_change_subscription" ∧ m.name = m'.name :=
  ⟨rfl, rfl⟩

/-- C6: For every well-formed notification mapping, the handler emits
exactly one error-level log entry containing the notification's content,
takes no other action (the monitor is unchanged), and never raises (it is
a total function). -/
theorem handleResponse_logs_once (m : ProjectFilesMonitor)
    (response : List (String × String)) :
    (handleResponse m response).1.length = 1 ∧
      (∀ e ∈ (handleResponse m response).1,
        e.level = LogLevel.error ∧
          ∃ s, e.message = s ++ reprDict response) ∧
      (handleResponse m response).2 = m := by
  refine ⟨rfl, ?_, rfl⟩
  intro e he
  simp only [handleResponse, List.mem_singleton] at he
  subst he
  exact ⟨rfl, "Received response from watchman: ", rfl⟩

/-- A concrete starting directory `/home/proj` (leaf-first). -/
def sampleArgs : Arguments := ⟨["proj", "home"]⟩

/-- A filesystem whose only watchman marker sits in `/home`. -/
def cfWithRoot : Path → String → Bool := fun p _t => decide (p = ["home"])

/-- A filesystem with no watchman marker anywhere. -/
def cfNoRoot : Path → String → Bool := fun _p _t => false

/-- A monitor constructed where the marker is found (watch root `/home`). -/
def mPresent : ProjectFilesMonitor :=
  ProjectFilesMonitor.init cfWithRoot 0 sampleArgs ⟨["thrift"]⟩ ⟨"ad"⟩

/-- A monitor constructed where no marker exists (absent watch root). -/
def mAbsent : ProjectFilesMonitor :=
  ProjectFilesMonitor.init cfNoRoot 1 sampleArgs ⟨[]⟩ ⟨"ad"⟩

/-- C1: With an absent watchman path, one evaluation of the
subscription-list body emits exactly one error-level log entry whose
message embeds the original starting directory, exits the process with
code 0, and never returns normally. -/
theorem subscriptions_absent_root_fatal (m : ProjectFilesMonitor)
    (h : m.watchman_path = none) :
    ∃ e : LogEntry,
      subscriptionsCompute m = SubsOutcome.exited [e] 0 ∧
        e.level = LogLevel.error ∧
        (∃ s t, e.message = s ++ pathToString m.arguments.current_directory ++ t) ∧
        ∀ logs subs, subscriptionsCompute m ≠ SubsOutcome.returned logs subs := by
  refine ⟨{ level := LogLevel.error
            message :=
              "Could not find a watchman directory from the current directory ("
                ++ pathToString m.arguments.current_directory ++ ")" },
    by simp [subscriptionsCompute, h], rfl,
    ⟨"Could not find a watchman directory from the current directory (", ")", rfl⟩,
    ?_⟩
  intro logs subs hc
  simp [subscriptionsCompute, h] at hc

/-- Witness for C1 at the concrete monitor `mAbsent`. -/
theorem subscriptions_absent_root_fatal_witness :
    mAbsent.watchman_path = none ∧
      ∃ e : LogEntry,
        subscriptionsCompute mAbsent = SubsOutcome.exited [e] 0 ∧
          e.level = LogLevel.error ∧
          (∃ s t,
            e.message = s ++ pathToString mAbsent.arguments.current_directory ++ t) ∧
          ∀ logs subs,
            subscriptionsCompute mAbsent ≠ SubsOutcome.returned logs subs :=
  ⟨rfl, subscriptions_absent_root_fatal mAbsent rfl⟩

/-- C9: The subscription-list body exits the process if and only if the
stored watchman path is absent; with a present path it returns normally
with no log entries. -/
theorem subscriptions_exit_iff (m : ProjectFilesMonitor) :
    ((∃ logs code, subscriptionsCompute m = SubsOutcome.exited logs code) ↔
        m.watchman_path = none) ∧
      ∀ root, m.watchman_path = some root →
        ∃ subs, subscriptionsCompute m = SubsOutcome.returned [] subs := by
  constructor
  · constructor
    · rintro ⟨logs, code, hc⟩
      cases hpath : m.watchman_path with
      | none => rfl
      | some r => simp [subscriptionsCompute, hpath] at hc
    · intro h
      exact ⟨[{ level := LogLevel.error
                message :=
                  "Could not find a watchman directory from the current directory ("
                    ++ pathToString m.arguments.current_directory ++ ")" }], 0,
        by simp [subscriptionsCompute, h]⟩
  · intro root h
    exact ⟨[{ root := root
              name := m.name
              subscription := subscriptionBodyFor m.extensions }],
      by simp [subscriptionsCompute, h]⟩

/-- Witness for C9: at `mPresent` the present-root branch returns
normally with no log entries. -/
theorem subscriptions_exit_iff_witness :
    ∃ subs, subscriptionsCompute mPresent = SubsOutcome.returned [] subs :=
  (subscriptions_exit_iff mPresent).2 ["home"] rfl

/-- C2: Construction stores the watch-extension set `{"py","pyi"} ∪ set(L)`
with duplicates removed, whatever the duplicates or ordering of the
configured list L. -/
theorem init_extensions_set (cf : Path → String → Bool) (i : Nat)
    (args : Arguments) (L : List String) (ad : AnalysisDirectory) :
    (ProjectFilesMonitor.init cf i args ⟨L⟩ ad).extensions.toFinset
        = {"py", "pyi"} ∪ L.toFinset ∧
      (ProjectFilesMonitor.init cf i args ⟨L⟩ ad).extensions.Nodup := by
  constructor
  · show ((["py", "pyi"] ++ L).dedup).toFinset = _
    ext a
    simp [List.mem_dedup, or_assoc]
  · exact List.nodup_dedup _

/-- A `findRoot` success returns an ancestor (a `drop` of the start
directory) that contains the target, and no strictly deeper ancestor
containing the target exists. -/
theorem findRoot_some_spec (cf : Path → String → Bool) (t : String) :
    ∀ D r : Path, findRoot cf t D = some r →
      (∃ n, r = D.drop n) ∧ cf r t = true ∧
        ∀ k, cf (D.drop k) t = true → (D.drop k).length ≤ r.length := by
  intro D
  induction D with
  | nil =>
    intro r h
    by_cases h' : cf [] t = true
    · simp only [findRoot, h', if_pos] at h
      cases h
      exact ⟨⟨0, rfl⟩, h', fun k _ => by simp⟩
    · simp [findRoot, h'] at h
  | cons a rest ih =>
    intro r h
    by_cases h' : cf (a :: rest) t = true
    · rw [findRoot, if_pos h'] at h
      cases h
      refine ⟨⟨0, rfl⟩, h', ?_⟩
      intro k _
      rw [List.length_drop]
      omega
    · rw [findRoot, if_neg h'] at h
      obtain ⟨⟨n, hn⟩, hcf, hbound⟩ := ih r h
      refine ⟨⟨n + 1, hn⟩, hcf, ?_⟩
      intro k hk
      cases k with
      | zero => exact absurd hk h'
      | succ k => exact hbound k hk

/-- A `findRoot` failure means no ancestor of the start directory contains
the target. -/
theorem findRoot_none_spec (cf : Path → String → Bool) (t : String) :
    ∀ D : Path, findRoot cf t D = none → ∀ k, cf (D.drop k) t = false := by
  intro D
  induction D with
  | nil =>
    intro h k
    by_cases h' : cf [] t = true
    · simp [findRoot, h'] at h
    · simp only [List.drop_nil]
      simpa using h'
  | cons a rest ih =>
    intro h k
    by_cases h' : cf (a :: rest) t = true
    · simp [findRoot, h'] at h
    · rw [findRoot, if_neg h'] at h
      cases k with
      | zero => simpa using h'
      | succ k => exact ih h k

/-- C4: Construction stores the result of the upward marker search: if
some ancestor of `arguments.current_directory` (itself included) contains
`.watchmanconfig`, the stored watch root is the nearest (deepest) such
ancestor; if none does, the stored watch root is `none`.  Resolution is a
total function, so it never raises. -/
theorem init_watchman_path_nearest (cf : Path → String → Bool) (i : Nat)
    (args : Arguments) (cfg : Configuration) (ad : AnalysisDirectory) :
    ((ProjectFilesMonitor.init cf i args cfg ad).watchman_path
        = findRoot cf ".watchmanconfig" args.current_directory) ∧
      (∀ r, (ProjectFilesMonitor.init cf i args cfg ad).watchman_path = some r →
        (∃ n, r = args.current_directory.drop n) ∧
          cf r ".watchmanconfig" = true ∧
          ∀ k, cf (args.current_directory.drop k) ".watchmanconfig" = true →
            (args.current_directory.drop k).length ≤ r.length) ∧
      ((ProjectFilesMonitor.init cf i args cfg ad).watchman_path = none →
        ∀ k, cf (args.current_directory.drop k) ".watchmanconfig" = false) :=
  ⟨rfl, fun r h => findRoot_some_spec cf _ _ r h,
    fun h k => findRoot_none_spec cf _ _ h k⟩

/-- Witness for C4 at the concrete filesystem `cfWithRoot`: from
`/home/proj` the resolved root is `/home`, the nearest marked ancestor. -/
theorem init_watchman_path_nearest_witness :
    (∃ n, ["home"] = sampleArgs.current_directory.drop n) ∧
      cfWithRoot ["home"] ".watchmanconfig" = true ∧
      ∀ k, cfWithRoot (sampleArgs.current_directory.drop k) ".watchmanconfig" = true →
        (sampleArgs.current_directory.drop k).length ≤ (["home"] : Path).length :=
  (init_watchman_path_nearest cfWithRoot 0 sampleArgs ⟨["thrift"]⟩ ⟨"ad"⟩).2.1
    ["home"] rfl

/-- Recognizer for the clause `["suffix", e]`. -/
def isSuffixClauseFor (e : String) : WExpr → Bool
  | WExpr.arr [WExpr.str "suffix", WExpr.str s] => s == e
  | _ => false

/-- The recognizer applied to a built suffix clause compares the two
extensions. -/
theorem isSuffixClauseFor_suffixClause (e a : String) :
    isSuffixClauseFor e (suffixClause a) = (a == e) := rfl

/-- Counting suffix clauses for `e` in the mapped clause list counts `e`
in the extension list. -/
theorem countP_isSuffixClauseFor (e : String) (l : List String) :
    List.countP (isSuffixClauseFor e) (l.map suffixClause) = List.count e l := by
  induction l with
  | nil => rfl
  | cons a l ih =>
    simp [List.countP_cons, List.count_cons, ih, isSuffixClauseFor_suffixClause]

/-- C3: With a present watch root, the subscription-list body returns a
one-element sequence whose request is bound to the resolved root and the
fixed name, whose expression is all-of(type-is-file, not-empty,
any-of(suffix clauses)) with exactly one suffix clause per watched
extension and nothing else, and whose fields list is exactly
`["name"]`. -/
theorem subscriptions_success_shape (cf : Path → String → Bool) (i : Nat)
    (args : Arguments) (cfg : Configuration) (ad : AnalysisDirectory)
    (root : Path)
    (h : (ProjectFilesMonitor.init cf i args cfg ad).watchman_path = some root) :
    ∃ sub : Subscription,
      subscriptionsCompute (ProjectFilesMonitor.init cf i args cfg ad)
          = SubsOutcome.returned [] [sub] ∧
        sub.root = root ∧
        sub.name = "pyre_file_change_subscription" ∧
        sub.subscription.fields = ["name"] ∧
        ∃ tail,
          sub.subscription.expression = WExpr.arr
            [WExpr.str "allof",
             WExpr.arr [WExpr.str "type", WExpr.str "f"],
             WExpr.arr [WExpr.str "not", WExpr.str "empty"],
             WExpr.arr (WExpr.str "anyof" :: tail)] ∧
          (∀ c ∈ tail,
            ∃ e ∈ (ProjectFilesMonitor.init cf i args cfg ad).extensions,
              c = suffixClause e) ∧
          ∀ e ∈ (ProjectFilesMonitor.init cf i args cfg ad).extensions,
            List.countP (isSuffixClauseFor e) tail = 1 := by
  refine ⟨{ root := root
            name := "pyre_file_change_subscription"
            subscription :=
              subscriptionBodyFor
                (ProjectFilesMonitor.init cf i args cfg ad).extensions },
    by simp [subscriptionsCompute, h, ProjectFilesMonitor.name], rfl, rfl, rfl,
    (ProjectFilesMonitor.init cf i args cfg ad).extensions.map suffixClause,
    rfl, ?_, ?_⟩
  · intro c hc
    rcases List.mem_map.mp hc with ⟨e, he, rfl⟩
    exact ⟨e, he, rfl⟩
  · intro e he
    rw [countP_isSuffixClauseFor]
    exact List.count_eq_one_of_mem (List.nodup_dedup _) he

/-- Witness for C3 at the concrete monitor `mPresent` (root `/home`,
extensions from the configured extra list `["thrift"]`). -/
theorem subscriptions_success_shape_witness :
    ∃ sub : Subscription,
      subscriptionsCompute
          (ProjectFilesMonitor.init cfWithRoot 0 sampleArgs ⟨["thrift"]⟩ ⟨"ad"⟩)
          = SubsOutcome.returned [] [sub] ∧
        sub.root = ["home"] ∧
        sub.name = "pyre_file_change_subscription" ∧
        sub.subscription.fields = ["name"] ∧
        ∃ tail,
          sub.subscription.expression = WExpr.arr
            [WExpr.str "allof",
             WExpr.arr [WExpr.str "type", WExpr.str "f"],
             WExpr.arr [WExpr.str "not", WExpr.str "empty"],
             WExpr.arr (WExpr.str "anyof" :: tail)] ∧
          (∀ c ∈ tail,
            ∃ e ∈ (ProjectFilesMonitor.init cfWithRoot 0 sampleArgs
                ⟨["thrift"]⟩ ⟨"ad"⟩).extensions,
              c = suffixClause e) ∧
          ∀ e ∈ (ProjectFilesMonitor.init cfWithRoot 0 sampleArgs
              ⟨["thrift"]⟩ ⟨"ad"⟩).extensions,
            List.countP (isSuffixClauseFor e) tail = 1 :=
  subscriptions_success_shape cfWithRoot 0 sampleArgs ⟨["thrift"]⟩ ⟨"ad"⟩
    ["home"] rfl

/-- C5: Once the cache slot holds an entry for this instance, a later
access through the `lru_cache` wrapper returns the identical cached list
without re-running the body — in particular without re-evaluating the
watch-root fatal-exit check, whatever the instance's current watchman
path. -/
theorem subscriptionsLru_memoizes (m m' : ProjectFilesMonitor)
    (logs : List LogEntry) (subs : List Subscription)
    (h1 : subscriptionsCompute m = SubsOutcome.returned logs subs)
    (h2 : m'.id = m.id) :
    subscriptionsLru m none = (SubsOutcome.returned logs subs, some (m.id, subs)) ∧
      subscriptionsLru m' (some (m.id, subs))
        = (SubsOutcome.returned [] subs, some (m.id, subs)) := by
  constructor
  · simp [subscriptionsLru, subscriptionsFresh, h1]
  · simp [subscriptionsLru, h2]

/-- The `mPresent` instance with its watchman path torn out: an instance
that would fail the fatal-exit check if the body were re-run. -/
def mPresentBroken : ProjectFilesMonitor :=
  { mPresent with watchman_path := none }

/-- The subscription list `mPresent` computes on the first access. -/
def samplePresentSubs : List Subscription :=
  [{ root := ["home"]
     name := "pyre_file_change_subscription"
     subscription := subscriptionBodyFor mPresent.extensions }]

/-- Witness for C5: after the first access fills the cache, a second
access on the same instance id returns the cached list even though the
instance (`mPresentBroken`) would now fail the watch-root check. -/
theorem subscriptionsLru_memoizes_witness :
    subscriptionsCompute mPresent = SubsOutcome.returned [] samplePresentSubs ∧
      mPresentBroken.id = mPresent.id ∧
      (∃ logs code,
        subscriptionsCompute mPresentBroken = SubsOutcome.exited logs code) ∧
      subscriptionsLru mPresent none
          = (SubsOutcome.returned [] samplePresentSubs,
             some (mPresent.id, samplePresentSubs)) ∧
      subscriptionsLru mPresentBroken (some (mPresent.id, samplePresentSubs))
          = (SubsOutcome.returned [] samplePresentSubs,
             some (mPresent.id, samplePresentSubs)) :=
  ⟨rfl, rfl, ⟨_, _, rfl⟩,
    subscriptionsLru_memoizes mPresent mPresentBroken [] samplePresentSubs rfl rfl⟩

/-- C8: Construction is a total function of its inputs — for every
startup-options, configuration and analysis-directory triple it completes
(never raises) and stores the documented field values. -/
theorem init_never_raises (cf : Path → String → Bool) (i : Nat)
    (args : Arguments) (cfg : Configuration) (ad : AnalysisDirectory) :
    ∃ m : ProjectFilesMonitor,
      ProjectFilesMonitor.init cf i args cfg ad = m ∧
        m.arguments = args ∧
        m.configuration = cfg ∧
        m.analysis_directory = ad ∧
        m.extensions = (["py", "pyi"] ++ cfg.extensions).dedup ∧
        m.watchman_path = findRoot cf ".watchmanconfig" args.current_directory :=
  ⟨_, rfl, rfl, rfl, rfl, rfl, rfl⟩

/-- C10: The stored fields are snapshots — name access, subscription
computation and notification handling leave the instance unchanged, and
swapping in a different configuration afterward changes neither the
stored extension set nor any observable output. -/
theorem monitor_state_frame (m : ProjectFilesMonitor)
    (response : List (String × String)) (cfg' : Configuration) :
    (nameCall m).2 = m ∧
      (subscriptionsCall m).2 = m ∧
      (handleResponse m response).2 = m ∧
      ({ m with configuration := cfg' } : ProjectFilesMonitor).extensions
          = m.extensions ∧
      ({ m with configuration := cfg' } : ProjectFilesMonitor).watchman_path
          = m.watchman_path ∧
      subscriptionsCompute { m with configuration := cfg' }
          = subscriptionsCompute m ∧
      ProjectFilesMonitor.name { m with configuration := cfg' } = m.name :=
  ⟨rfl, rfl, rfl, rfl, rfl, rfl, rfl⟩

end PyreMonitor
